import Mathlib

/-!
Shallow embedding of `egui_custom_frame` (src/lib.rs).

Coordinates are modelled as rationals (`ℚ`). The geometric primitives
(`Pos2`, `Vec2`, `Rect`, `Margin`, `Rounding`, `Shadow`, `Color32`,
`Stroke`, panel `Frame`) follow the definitions of the egui types the
crate uses; only the fields and operations exercised by `lib.rs` are
embedded. `CustomFrame.show` embeds the body of `CustomFrame::show`:
the per-frame host inputs (maximized flag, clip-rect size, pointer
position, event flags reported by the two `ui.interact` responses) are
gathered in `FrameInput`, and the observable effects (registered
interaction regions, cursor-icon override, emitted viewport commands)
in `ShowOutput`.
-/

/-- Two-dimensional point, egui `Pos2`. -/
structure Pos2 where
  x : ℚ
  y : ℚ
deriving DecidableEq

/-- Two-dimensional vector, egui `Vec2`. -/
structure Vec2 where
  x : ℚ
  y : ℚ
deriving DecidableEq

/-- Axis-aligned rectangle given by its two corners, egui `Rect`. -/
structure Rect where
  min : Pos2
  max : Pos2
deriving DecidableEq

namespace Rect

/-- Left edge (`Rect::left`). -/
def left (r : Rect) : ℚ := r.min.x

/-- Right edge (`Rect::right`). -/
def right (r : Rect) : ℚ := r.max.x

/-- Top edge (`Rect::top`). -/
def top (r : Rect) : ℚ := r.min.y

/-- Bottom edge (`Rect::bottom`). -/
def bottom (r : Rect) : ℚ := r.max.y

/-- Construct from two corners (`Rect::from_min_max`). -/
def fromMinMax (mn mx : Pos2) : Rect := ⟨mn, mx⟩

/-- Construct from a corner and a size (`Rect::from_min_size`). -/
def fromMinSize (mn : Pos2) (size : Vec2) : Rect :=
  ⟨mn, ⟨mn.x + size.x, mn.y + size.y⟩⟩

/-- Membership test (`Rect::contains`): inclusive on all four edges. -/
def contains (r : Rect) (p : Pos2) : Prop :=
  r.min.x ≤ p.x ∧ p.x ≤ r.max.x ∧ r.min.y ≤ p.y ∧ p.y ≤ r.max.y

instance (r : Rect) (p : Pos2) : Decidable (r.contains p) :=
  inferInstanceAs (Decidable (_ ∧ _ ∧ _ ∧ _))

/-- Translation by a vector (`Rect::translate`). -/
def translate (r : Rect) (v : Vec2) : Rect :=
  ⟨⟨r.min.x + v.x, r.min.y + v.y⟩, ⟨r.max.x + v.x, r.max.y + v.y⟩⟩

/-- Pointwise intersection (`Rect::intersect`). -/
def intersect (r other : Rect) : Rect :=
  ⟨⟨Max.max r.min.x other.min.x, Max.max r.min.y other.min.y⟩,
   ⟨Min.min r.max.x other.max.x, Min.min r.max.y other.max.y⟩⟩

/-- Symmetric shrink (`Rect::shrink`). -/
def shrink (r : Rect) (amnt : ℚ) : Rect :=
  ⟨⟨r.min.x + amnt, r.min.y + amnt⟩, ⟨r.max.x - amnt, r.max.y - amnt⟩⟩

end Rect

/-- Four-sided inset, egui `Margin`. -/
structure Margin where
  left : ℚ
  right : ℚ
  top : ℚ
  bottom : ℚ
deriving DecidableEq

/-- Uniform margin (`Margin::same`, also `Margin::from(f32)`). -/
def Margin.same (v : ℚ) : Margin := ⟨v, v, v, v⟩

/-- Rect inset by a margin (egui `impl Sub<Margin> for Rect`):
`min + margin.left_top()`, `max - margin.right_bottom()`. -/
def Rect.subMargin (r : Rect) (m : Margin) : Rect :=
  ⟨⟨r.min.x + m.left, r.min.y + m.top⟩, ⟨r.max.x - m.right, r.max.y - m.bottom⟩⟩

/-- Per-corner rounding radii, egui `Rounding`. -/
structure Rounding where
  nw : ℚ
  ne : ℚ
  sw : ℚ
  se : ℚ
deriving DecidableEq

/-- Uniform rounding (`Rounding::same`, also `Rounding::from(f32)`). -/
def Rounding.same (v : ℚ) : Rounding := ⟨v, v, v, v⟩

/-- Zero rounding (`Rounding::ZERO`). -/
def Rounding.ZERO : Rounding := Rounding.same 0

/-- Color with premultiplied alpha, egui `Color32`. -/
structure Color32 where
  r : ℕ
  g : ℕ
  b : ℕ
  a : ℕ
deriving DecidableEq

/-- Translucent black (`Color32::from_black_alpha`). -/
def Color32.fromBlackAlpha (alpha : ℕ) : Color32 := ⟨0, 0, 0, alpha⟩

/-- Fully transparent color (`Color32::TRANSPARENT`). -/
def Color32.TRANSPARENT : Color32 := ⟨0, 0, 0, 0⟩

/-- Drop-shadow parameters, egui `Shadow`. -/
structure Shadow where
  offset : Vec2
  blur : ℚ
  spread : ℚ
  color : Color32
deriving DecidableEq

/-- No shadow (`Shadow::NONE`). -/
def Shadow.NONE : Shadow := ⟨⟨0, 0⟩, 0, 0, Color32.TRANSPARENT⟩

/-- Line stroke, egui `Stroke`. -/
structure Stroke where
  width : ℚ
  color : Color32
deriving DecidableEq

/-- No stroke (`Stroke::NONE`). -/
def Stroke.NONE : Stroke := ⟨0, Color32.TRANSPARENT⟩

/-- Panel visual spec, egui `Frame` (the fields `lib.rs` sets). -/
structure Frame where
  fill : Color32
  rounding : Rounding
  stroke : Stroke
  outer_margin : Margin
  inner_margin : Margin
  shadow : Shadow
deriving DecidableEq

/-- Largest finite `f32` value, `f32::MAX` = (2 - 2^-23) * 2^127. -/
def f32Max : ℚ := 2 ^ 128 - 2 ^ 104

/-- Most negative finite `f32` value, `f32::MIN` = -`f32::MAX`. -/
def f32Min : ℚ := -f32Max

/-- One of the 8 compass resize directions, egui `ResizeDirection`. -/
inductive ResizeDirection where
  | north
  | northEast
  | east
  | southEast
  | south
  | southWest
  | west
  | northWest
deriving DecidableEq

/-- Cursor icons used by `lib.rs`, egui `CursorIcon` (resize variants). -/
inductive CursorIcon where
  | resizeNorth
  | resizeNorthEast
  | resizeEast
  | resizeSouthEast
  | resizeSouth
  | resizeSouthWest
  | resizeWest
  | resizeNorthWest
deriving DecidableEq

/-- Cursor icon paired with each direction in the branches of
`CustomFrame::show` (lines 144, 151, 158, 167, 174, 181, 190, 197). -/
def ResizeDirection.cursorIcon : ResizeDirection → CursorIcon
  | .north => .resizeNorth
  | .northEast => .resizeNorthEast
  | .east => .resizeEast
  | .southEast => .resizeSouthEast
  | .south => .resizeSouth
  | .southWest => .resizeSouthWest
  | .west => .resizeWest
  | .northWest => .resizeNorthWest

/-- Viewport commands emitted by `lib.rs`, egui `ViewportCommand`. -/
inductive ViewportCommand where
  | beginResize (d : ResizeDirection)
  | startDrag
  | maximized (b : Bool)
deriving DecidableEq

/-- The frame style, `struct CustomFrame` (lib.rs lines 32-47). -/
structure CustomFrame where
  sizebox : Margin
  caption : Rect
  inner_margin : Margin
  rounding : Rounding
  shadow : Shadow
deriving DecidableEq

/-- Fluent setter `CustomFrame::sizebox` (lib.rs lines 53-56). -/
def CustomFrame.withSizebox (f : CustomFrame) (sizebox : Margin) : CustomFrame :=
  { f with sizebox := sizebox }

/-- Fluent setter `CustomFrame::caption` (lib.rs lines 60-63). -/
def CustomFrame.withCaption (f : CustomFrame) (caption : Rect) : CustomFrame :=
  { f with caption := caption }

/-- Fluent setter `CustomFrame::rounding` (lib.rs lines 67-70). -/
def CustomFrame.withRounding (f : CustomFrame) (rounding : Rounding) : CustomFrame :=
  { f with rounding := rounding }

/-- Fluent setter `CustomFrame::shadow` (lib.rs lines 73-76). -/
def CustomFrame.withShadow (f : CustomFrame) (shadow : Shadow) : CustomFrame :=
  { f with shadow := shadow }

/-- Names of the fluent setter methods defined in `impl CustomFrame`
(lib.rs lines 49-77): `sizebox`, `caption`, `rounding`, `shadow`.
There is no fluent setter for the `inner_margin` field. -/
def CustomFrame.fluentSetterNames : List String :=
  ["sizebox", "caption", "rounding", "shadow"]

/-- The default style, `impl Default for CustomFrame` (lib.rs lines 224-239). -/
def CustomFrame.default : CustomFrame :=
  { sizebox := Margin.same 4
    caption := Rect.fromMinMax ⟨4, 4⟩ ⟨f32Max, 44⟩
    inner_margin := Margin.same 10
    rounding := Rounding.same 10
    shadow := ⟨⟨0, 0⟩, 18, 2, Color32.fromBlackAlpha 0x20⟩ }

/-- Host inputs read during one call of `CustomFrame::show`: the
maximize flag, the clip-rect size of the central panel, the pointer
interact position (if any), and the event flags the two `ui.interact`
responses report for this frame. -/
structure FrameInput where
  maximized : Bool
  clipWidth : ℚ
  clipHeight : ℚ
  pointerPos : Option Pos2
  sizeboxDragStarted : Bool
  captionDragStarted : Bool
  captionDoubleClicked : Bool

/-- Pointer position used by `show` (lib.rs lines 107-112): the
interact position, or the sentinel `(f32::MIN, f32::MIN)` when absent. -/
def FrameInput.pos (inp : FrameInput) : Pos2 :=
  inp.pointerPos.getD ⟨f32Min, f32Min⟩

/-- Derived `shadow_width` (lib.rs line 81). -/
def CustomFrame.shadowWidth (f : CustomFrame) (isMaximized : Bool) : ℚ :=
  if isMaximized then 0 else f.shadow.blur + f.shadow.spread

/-- The `panel_frame` visual spec (lib.rs lines 83-91); `panelFill` is
the theme's `panel_fill` color. -/
def CustomFrame.panelFrame (f : CustomFrame) (isMaximized : Bool)
    (panelFill : Color32) : Frame :=
  { fill := panelFill
    rounding := if isMaximized then Rounding.ZERO else f.rounding
    stroke := Stroke.NONE
    outer_margin := Margin.same (f.shadowWidth isMaximized)
    inner_margin := f.inner_margin
    shadow := if isMaximized then Shadow.NONE else f.shadow }

/-- The `view_rect` local (lib.rs lines 94-99): origin-based rect of
the clip rect's size, shrunk by `shadow_width`. -/
def CustomFrame.viewRect (f : CustomFrame) (inp : FrameInput) : Rect :=
  (Rect.fromMinSize ⟨0, 0⟩ ⟨inp.clipWidth, inp.clipHeight⟩).shrink
    (f.shadowWidth inp.maximized)

/-- The `sizebox_inner` local (lib.rs line 101): `view_rect - sizebox`. -/
def CustomFrame.sizeboxInner (f : CustomFrame) (inp : FrameInput) : Rect :=
  (f.viewRect inp).subMargin f.sizebox

/-- The `caption_rect` local (lib.rs lines 102-104): configured caption
translated by `(shadow_width, shadow_width)`, intersected with
`sizebox_inner`. -/
def CustomFrame.captionRect (f : CustomFrame) (inp : FrameInput) : Rect :=
  (f.caption.translate ⟨f.shadowWidth inp.maximized, f.shadowWidth inp.maximized⟩).intersect
    (f.sizeboxInner inp)

/-- Guard of the sizebox `ui.interact` (lib.rs lines 115-117):
pointer inside `view_rect`, outside `sizebox_inner`, not maximized. -/
def CustomFrame.sizeboxActive (f : CustomFrame) (inp : FrameInput) : Prop :=
  (f.viewRect inp).contains inp.pos ∧ ¬ (f.sizeboxInner inp).contains inp.pos ∧
    inp.maximized = false

instance (f : CustomFrame) (inp : FrameInput) : Decidable (f.sizeboxActive inp) :=
  inferInstanceAs (Decidable (_ ∧ _ ∧ _))

/-- Directional classification of the resize branches
(lib.rs lines 142-204): the nested comparisons of `pos` against the
edges of `sizebox_inner`, in source order; `none` is the final
fall-through branch that sets no cursor and sends no command. -/
def resolveDirection (pos : Pos2) (core : Rect) : Option ResizeDirection :=
  if pos.x < core.left then
    if pos.y < core.top then some .northWest
    else if pos.y > core.bottom then some .southWest
    else some .west
  else if pos.x > core.right then
    if pos.y < core.top then some .northEast
    else if pos.y > core.bottom then some .southEast
    else some .east
  else
    if pos.y < core.top then some .north
    else if pos.y > core.bottom then some .south
    else none

/-- Observable effects of one call of `CustomFrame::show`: the rects of
the registered drag-sense regions (if any), the cursor-icon override
(if any), and the viewport commands sent, in emission order. -/
structure ShowOutput where
  sizeboxRegion : Option Rect
  captionRegion : Option Rect
  cursor : Option CursorIcon
  commands : List ViewportCommand
deriving DecidableEq

/-- Body of `CustomFrame::show` (lib.rs lines 79-221): region
registration (lines 115-136), resize resolution with cursor and
`BeginResize` emission (lines 139-205), caption `StartDrag` and
`Maximized` emission (lines 208-216). -/
def CustomFrame.show (f : CustomFrame) (inp : FrameInput) : ShowOutput :=
  let pos := inp.pos
  let sizebox_response : Option Rect :=
    if f.sizeboxActive inp then some (f.viewRect inp) else none
  let caption_response : Option Rect :=
    if (f.captionRect inp).contains pos then some (f.captionRect inp) else none
  let direction : Option ResizeDirection :=
    match sizebox_response with
    | some _ => resolveDirection pos (f.sizeboxInner inp)
    | none => none
  { sizeboxRegion := sizebox_response
    captionRegion := caption_response
    cursor := direction.map ResizeDirection.cursorIcon
    commands :=
      (match direction with
        | some d => if inp.sizeboxDragStarted then [ViewportCommand.beginResize d] else []
        | none => []) ++
      (match caption_response with
        | some _ =>
          (if inp.captionDragStarted then [ViewportCommand.startDrag] else []) ++
          (if inp.captionDoubleClicked then [ViewportCommand.maximized (!inp.maximized)] else [])
        | none => []) }

/-- Classifier for directional resize commands. -/
def ViewportCommand.isResizeCommand : ViewportCommand → Bool
  | .beginResize _ => true
  | _ => false

/-- Classifier for caption commands (begin-window-drag or set-maximized). -/
def ViewportCommand.isCaptionCommand : ViewportCommand → Bool
  | .startDrag => true
  | .maximized _ => true
  | .beginResize _ => false

/-- Classifier for set-maximized commands. -/
def ViewportCommand.isMaximizedCommand : ViewportCommand → Bool
  | .maximized _ => true
  | _ => false

/-- Small concrete style for evaluating witnesses: uniform resize
margin 4, caption (4,4)-(50,20), zero-width shadow. -/
def cfSmall : CustomFrame :=
  { sizebox := Margin.same 4
    caption := Rect.fromMinMax ⟨4, 4⟩ ⟨50, 20⟩
    inner_margin := Margin.same 10
    rounding := Rounding.same 10
    shadow := ⟨⟨0, 0⟩, 0, 0, Color32.fromBlackAlpha 0x20⟩ }

/-- Witness input: pointer in the west resize ring, drag starting. -/
def inpWest : FrameInput := ⟨false, 100, 100, some ⟨2, 50⟩, true, false, false⟩

/-- Witness input: pointer in the interior, no events. -/
def inpCore : FrameInput := ⟨false, 100, 100, some ⟨60, 60⟩, false, false, false⟩

/-- Witness input: pointer in the caption area, no events. -/
def inpCap : FrameInput := ⟨false, 100, 100, some ⟨10, 10⟩, false, false, false⟩

/-- Witness input: pointer in the caption area, caption drag starting. -/
def inpCapDrag : FrameInput := ⟨false, 100, 100, some ⟨10, 10⟩, false, true, false⟩

/-- Witness input: pointer in the caption area, caption drag starting
and a double click in the same frame. -/
def inpCapBoth : FrameInput := ⟨false, 100, 100, some ⟨10, 10⟩, false, true, true⟩

/-- Witness input: no pointer position available this frame. -/
def inpNoPtr : FrameInput := ⟨false, 100, 100, none, true, true, true⟩

/-! Helper lemmas. -/

/-- Unfolding lemma for `Rect.contains`. -/
theorem Rect.contains_iff (r : Rect) (p : Pos2) :
    r.contains p ↔ r.min.x ≤ p.x ∧ p.x ≤ r.max.x ∧ r.min.y ≤ p.y ∧ p.y ≤ r.max.y :=
  Iff.rfl

/-- When a pointer position is reported, `FrameInput.pos` is that position. -/
theorem FrameInput.pos_eq (inp : FrameInput) (p : Pos2)
    (hp : inp.pointerPos = some p) : inp.pos = p := by
  simp [FrameInput.pos, hp]

/-- Every point of the computed caption rect lies in `sizebox_inner`:
the intersection with `sizebox_inner` is absorbed by it. -/
theorem captionRect_subset (f : CustomFrame) (inp : FrameInput) (p : Pos2)
    (h : (f.captionRect inp).contains p) : (f.sizeboxInner inp).contains p := by
  simp only [CustomFrame.captionRect, Rect.intersect, Rect.contains] at h
  obtain ⟨h1, h2, h3, h4⟩ := h
  exact ⟨le_trans (le_max_right _ _) h1, le_trans h2 (min_le_right _ _),
         le_trans (le_max_right _ _) h3, le_trans h4 (min_le_right _ _)⟩

/-- The registered sizebox region, as an if-expression. -/
theorem show_sizeboxRegion_eq (f : CustomFrame) (inp : FrameInput) :
    (f.show inp).sizeboxRegion =
      if f.sizeboxActive inp then some (f.viewRect inp) else none :=
  rfl

/-- The registered caption region, as an if-expression. -/
theorem show_captionRegion_eq (f : CustomFrame) (inp : FrameInput) :
    (f.show inp).captionRegion =
      if (f.captionRect inp).contains inp.pos then some (f.captionRect inp) else none :=
  rfl

/-- The emitted command list, as a function of the two region guards,
the resolved direction, and the event flags. -/
theorem show_commands_eq (f : CustomFrame) (inp : FrameInput) :
    (f.show inp).commands =
      (if f.sizeboxActive inp then
        (match resolveDirection inp.pos (f.sizeboxInner inp) with
          | some d => if inp.sizeboxDragStarted then [ViewportCommand.beginResize d] else []
          | none => [])
       else []) ++
      (if (f.captionRect inp).contains inp.pos then
        (if inp.captionDragStarted then [ViewportCommand.startDrag] else []) ++
        (if inp.captionDoubleClicked then [ViewportCommand.maximized (!inp.maximized)] else [])
       else []) := by
  unfold CustomFrame.show
  by_cases h1 : f.sizeboxActive inp <;>
    by_cases h2 : (f.captionRect inp).contains inp.pos <;>
    simp [h1, h2]

/-- The cursor override, as a function of the sizebox guard and the
resolved direction. -/
theorem show_cursor_eq (f : CustomFrame) (inp : FrameInput) :
    (f.show inp).cursor =
      if f.sizeboxActive inp then
        (resolveDirection inp.pos (f.sizeboxInner inp)).map ResizeDirection.cursorIcon
      else none := by
  unfold CustomFrame.show
  by_cases h1 : f.sizeboxActive inp <;> simp [h1]

/-- A pointer outside the core rect always resolves to some direction:
the final fall-through of the branch ladder requires all four
comparisons to fail, which puts the pointer inside the core rect. -/
theorem resolveDirection_isSome (p : Pos2) (core : Rect)
    (h : ¬ core.contains p) : ∃ d, resolveDirection p core = some d := by
  unfold resolveDirection
  split_ifs with h1 h2 h3 h4 h5 h6 h7 h8 <;>
    first
      | exact ⟨_, rfl⟩
      | exact absurd ⟨not_lt.mp h1, not_lt.mp h4, not_lt.mp h7, not_lt.mp h8⟩ h

/-- The branch ladder of the direction resolution follows the
edge-comparison rule of lib.rs lines 142-204, in source order. -/
theorem resolveDirection_spec (p : Pos2) (core : Rect) (d : ResizeDirection)
    (h : resolveDirection p core = some d) :
    (p.x < core.left → p.y < core.top → d = .northWest) ∧
    (p.x < core.left → ¬ p.y < core.top → p.y > core.bottom → d = .southWest) ∧
    (p.x < core.left → ¬ p.y < core.top → ¬ p.y > core.bottom → d = .west) ∧
    (¬ p.x < core.left → p.x > core.right → p.y < core.top → d = .northEast) ∧
    (¬ p.x < core.left → p.x > core.right → ¬ p.y < core.top → p.y > core.bottom →
      d = .southEast) ∧
    (¬ p.x < core.left → p.x > core.right → ¬ p.y < core.top → ¬ p.y > core.bottom →
      d = .east) ∧
    (¬ p.x < core.left → ¬ p.x > core.right → p.y < core.top → d = .north) ∧
    (¬ p.x < core.left → ¬ p.x > core.right → ¬ p.y < core.top → p.y > core.bottom →
      d = .south) := by
  unfold resolveDirection at h
  split_ifs at h <;> simp_all

/-- Characterization of `show` when the sizebox guard holds. -/
theorem show_resize_char (f : CustomFrame) (inp : FrameInput)
    (hA : f.sizeboxActive inp) :
    (f.show inp).sizeboxRegion = some (f.viewRect inp) ∧
    (f.show inp).captionRegion = none ∧
    (f.show inp).cursor =
      (resolveDirection inp.pos (f.sizeboxInner inp)).map ResizeDirection.cursorIcon ∧
    (f.show inp).commands =
      (match resolveDirection inp.pos (f.sizeboxInner inp) with
        | some d => if inp.sizeboxDragStarted then [ViewportCommand.beginResize d] else []
        | none => []) := by
  have hcap : ¬ (f.captionRect inp).contains inp.pos := fun hc =>
    hA.2.1 (captionRect_subset f inp _ hc)
  refine ⟨?_, ?_, ?_, ?_⟩
  · rw [show_sizeboxRegion_eq, if_pos hA]
  · rw [show_captionRegion_eq, if_neg hcap]
  · rw [show_cursor_eq, if_pos hA]
  · rw [show_commands_eq, if_pos hA, if_neg hcap, List.append_nil]

/-! Claim theorems. -/

/-- C1: for every pointer position outside `sizebox_inner` (the core
rect) but inside `view_rect`, with the window not maximized, the
direction resolution yields exactly one direction, the matching one of
the 8 directional cursor icons is set, and on a drag-start event that
same frame exactly the matching `BeginResize` command is emitted,
following the edge rule of lib.rs lines 142-204. -/
theorem C1_direction_resolution (f : CustomFrame) (inp : FrameInput) (p : Pos2)
    (hp : inp.pointerPos = some p)
    (hv : (f.viewRect inp).contains p)
    (hc : ¬ (f.sizeboxInner inp).contains p)
    (hm : inp.maximized = false) :
    ∃ d : ResizeDirection,
      resolveDirection p (f.sizeboxInner inp) = some d ∧
      (f.show inp).cursor = some d.cursorIcon ∧
      (f.show inp).commands =
        (if inp.sizeboxDragStarted then [ViewportCommand.beginResize d] else []) ∧
      (p.x < (f.sizeboxInner inp).left → p.y < (f.sizeboxInner inp).top →
        d = .northWest) ∧
      (p.x < (f.sizeboxInner inp).left → ¬ p.y < (f.sizeboxInner inp).top →
        p.y > (f.sizeboxInner inp).bottom → d = .southWest) ∧
      (p.x < (f.sizeboxInner inp).left → ¬ p.y < (f.sizeboxInner inp).top →
        ¬ p.y > (f.sizeboxInner inp).bottom → d = .west) ∧
      (¬ p.x < (f.sizeboxInner inp).left → p.x > (f.sizeboxInner inp).right →
        p.y < (f.sizeboxInner inp).top → d = .northEast) ∧
      (¬ p.x < (f.sizeboxInner inp).left → p.x > (f.sizeboxInner inp).right →
        ¬ p.y < (f.sizeboxInner inp).top → p.y > (f.sizeboxInner inp).bottom →
        d = .southEast) ∧
      (¬ p.x < (f.sizeboxInner inp).left → p.x > (f.sizeboxInner inp).right →
        ¬ p.y < (f.sizeboxInner inp).top → ¬ p.y > (f.sizeboxInner inp).bottom →
        d = .east) ∧
      (¬ p.x < (f.sizeboxInner inp).left → ¬ p.x > (f.sizeboxInner inp).right →
        p.y < (f.sizeboxInner inp).top → d = .north) ∧
      (¬ p.x < (f.sizeboxInner inp).left → ¬ p.x > (f.sizeboxInner inp).right →
        ¬ p.y < (f.sizeboxInner inp).top → p.y > (f.sizeboxInner inp).bottom →
        d = .south) := by
  have hpos : inp.pos = p := FrameInput.pos_eq inp p hp
  have hA : f.sizeboxActive inp := ⟨by rwa [hpos], by rwa [hpos], hm⟩
  obtain ⟨d, hd⟩ := resolveDirection_isSome p (f.sizeboxInner inp) hc
  obtain ⟨-, -, hcur, hcmd⟩ := show_resize_char f inp hA
  refine ⟨d, hd, ?_, ?_, resolveDirection_spec p (f.sizeboxInner inp) d hd⟩
  · rw [hcur, hpos, hd]
    rfl
  · rw [hcmd, hpos, hd]

/-- C1 witness: in the small concrete style with the pointer at (2, 50)
in the west ring and a drag starting, the west cursor is set and a
single west `BeginResize` command is emitted. -/
theorem C1_witness :
    (cfSmall.show inpWest).cursor = some CursorIcon.resizeWest ∧
    (cfSmall.show inpWest).commands = [ViewportCommand.beginResize ResizeDirection.west] := by
  obtain ⟨d, hd, hcur, hcmd, -⟩ :=
    C1_direction_resolution cfSmall inpWest ⟨2, 50⟩ rfl
      (by norm_num [cfSmall, inpWest, CustomFrame.viewRect, CustomFrame.shadowWidth,
        Rect.fromMinSize, Rect.shrink, Rect.contains])
      (by norm_num [cfSmall, inpWest, CustomFrame.viewRect, CustomFrame.sizeboxInner,
        CustomFrame.shadowWidth, Rect.fromMinSize, Rect.shrink, Rect.subMargin,
        Rect.contains, Margin.same])
      rfl
  have hw : resolveDirection ⟨2, 50⟩ (cfSmall.sizeboxInner inpWest) =
      some ResizeDirection.west := by
    norm_num [resolveDirection, cfSmall, inpWest, CustomFrame.viewRect,
      CustomFrame.sizeboxInner, CustomFrame.shadowWidth, Rect.fromMinSize, Rect.shrink,
      Rect.subMargin, Rect.left, Rect.right, Rect.top, Rect.bottom, Margin.same]
  rw [hd] at hw
  injection hw with hw
  subst hw
  exact ⟨hcur, by simpa [inpWest] using hcmd⟩

/-- C2: with a pointer position reported, the sizebox region is
registered if and only if the pointer is inside `view_rect`, outside
`sizebox_inner` (which is `view_rect` minus the `sizebox` margin), and
the window is not maximized; when registered it covers the whole
`view_rect`; a pointer inside `sizebox_inner` never registers one. -/
theorem C2_sizebox_region (f : CustomFrame) (inp : FrameInput) (p : Pos2)
    (hp : inp.pointerPos = some p) :
    ((f.show inp).sizeboxRegion = some (f.viewRect inp) ↔
      (f.viewRect inp).contains p ∧ ¬ (f.sizeboxInner inp).contains p ∧
        inp.maximized = false) ∧
    ((f.show inp).sizeboxRegion = none ∨
      (f.show inp).sizeboxRegion = some (f.viewRect inp)) ∧
    f.sizeboxInner inp = (f.viewRect inp).subMargin f.sizebox ∧
    ((f.sizeboxInner inp).contains p → (f.show inp).sizeboxRegion = none) := by
  have hpos : inp.pos = p := FrameInput.pos_eq inp p hp
  refine ⟨?_, ?_, rfl, ?_⟩
  · rw [show_sizeboxRegion_eq]
    by_cases hA : f.sizeboxActive inp
    · rw [if_pos hA]
      exact iff_of_true rfl ⟨by rw [← hpos]; exact hA.1, by rw [← hpos]; exact hA.2.1, hA.2.2⟩
    · rw [if_neg hA]
      refine iff_of_false (by simp) fun hcond => hA ?_
      exact ⟨by rw [hpos]; exact hcond.1, by rw [hpos]; exact hcond.2.1, hcond.2.2⟩
  · rw [show_sizeboxRegion_eq]
    by_cases hA : f.sizeboxActive inp
    · rw [if_pos hA]
      exact Or.inr rfl
    · rw [if_neg hA]
      exact Or.inl rfl
  · intro hin
    have hA : ¬ f.sizeboxActive inp := fun hA => hA.2.1 (by rwa [hpos])
    rw [show_sizeboxRegion_eq, if_neg hA]

/-- C2 witness: with the pointer at (60, 60), inside the core rect of
the small concrete style, no sizebox region is registered. -/
theorem C2_witness : (cfSmall.show inpCore).sizeboxRegion = none :=
  (C2_sizebox_region cfSmall inpCore ⟨60, 60⟩ rfl).2.2.2
    (by norm_num [cfSmall, inpCore, CustomFrame.viewRect, CustomFrame.sizeboxInner,
      CustomFrame.shadowWidth, Rect.fromMinSize, Rect.shrink, Rect.subMargin,
      Rect.contains, Margin.same])

/-- C3: when maximized, `shadow_width` is 0, the panel spec uses zero
rounding and no shadow, and no sizebox region is registered for any
pointer position; when not maximized, `shadow_width` is blur + spread
and the configured rounding and shadow are used. -/
theorem C3_maximized_suppression (f : CustomFrame) (c : Color32) (w h : ℚ)
    (pp : Option Pos2) (sd cd dc : Bool) :
    f.shadowWidth true = 0 ∧
    (f.panelFrame true c).rounding = Rounding.ZERO ∧
    (f.panelFrame true c).shadow = Shadow.NONE ∧
    (f.show ⟨true, w, h, pp, sd, cd, dc⟩).sizeboxRegion = none ∧
    f.shadowWidth false = f.shadow.blur + f.shadow.spread ∧
    (f.panelFrame false c).rounding = f.rounding ∧
    (f.panelFrame false c).shadow = f.shadow := by
  refine ⟨rfl, rfl, rfl, ?_, rfl, rfl, rfl⟩
  have hA : ¬ f.sizeboxActive ⟨true, w, h, pp, sd, cd, dc⟩ := fun hA => by
    simpa using hA.2.2
  rw [show_sizeboxRegion_eq, if_neg hA]

/-- C4: the computed caption rect is the configured caption rect
translated by `(shadow_width, shadow_width)` and intersected with
`sizebox_inner`, and every point of it lies in `sizebox_inner`. -/
theorem C4_caption_rect (f : CustomFrame) (inp : FrameInput) :
    f.captionRect inp =
      (f.caption.translate
          ⟨f.shadowWidth inp.maximized, f.shadowWidth inp.maximized⟩).intersect
        (f.sizeboxInner inp) ∧
    ∀ p : Pos2, (f.captionRect inp).contains p → (f.sizeboxInner inp).contains p :=
  ⟨rfl, fun p => captionRect_subset f inp p⟩

/-- C4 witness: the point (10, 10) of the small style's caption rect
lies in `sizebox_inner`. -/
theorem C4_witness : (cfSmall.sizeboxInner inpCap).contains ⟨10, 10⟩ :=
  (C4_caption_rect cfSmall inpCap).2 ⟨10, 10⟩
    (by norm_num [cfSmall, inpCap, CustomFrame.captionRect, CustomFrame.viewRect,
      CustomFrame.sizeboxInner, CustomFrame.shadowWidth, Rect.fromMinSize, Rect.fromMinMax,
      Rect.shrink, Rect.subMargin, Rect.translate, Rect.intersect, Rect.contains,
      Margin.same, max_def, min_def])

/-- C5: a drag start with the pointer inside the computed caption rect
emits exactly one `StartDrag` command and no `BeginResize` command,
for every configured caption rect. -/
theorem C5_caption_drag (f : CustomFrame) (inp : FrameInput) (p : Pos2)
    (hp : inp.pointerPos = some p)
    (hcap : (f.captionRect inp).contains p)
    (hd : inp.captionDragStarted = true) :
    (f.show inp).commands.count ViewportCommand.startDrag = 1 ∧
    ∀ d : ResizeDirection, ViewportCommand.beginResize d ∉ (f.show inp).commands := by
  have hpos : inp.pos = p := FrameInput.pos_eq inp p hp
  have hcore : (f.sizeboxInner inp).contains p := captionRect_subset f inp p hcap
  have hA : ¬ f.sizeboxActive inp := fun hA => hA.2.1 (by rwa [hpos])
  have hcap' : (f.captionRect inp).contains inp.pos := by rwa [hpos]
  rw [show_commands_eq, if_neg hA, if_pos hcap', hd]
  cases hdc : inp.captionDoubleClicked <;>
    simp [List.count_cons, beq_iff_eq]

/-- C5 witness: a caption drag at (10, 10) in the small style emits
exactly one `StartDrag` command. -/
theorem C5_witness :
    (cfSmall.show inpCapDrag).commands.count ViewportCommand.startDrag = 1 :=
  (C5_caption_drag cfSmall inpCapDrag ⟨10, 10⟩ rfl
    (by norm_num [cfSmall, inpCapDrag, CustomFrame.captionRect, CustomFrame.viewRect,
      CustomFrame.sizeboxInner, CustomFrame.shadowWidth, Rect.fromMinSize, Rect.fromMinMax,
      Rect.shrink, Rect.subMargin, Rect.translate, Rect.intersect, Rect.contains,
      Margin.same, max_def, min_def]) rfl).1

/-- C6 counterexample: when a caption drag start and a double click are
both observed in the same frame, the code emits two caption commands
(`StartDrag` and `Maximized`), so "at most one caption command per
frame" fails. -/
theorem C6_counterexample :
    ((cfSmall.show inpCapBoth).commands.filter ViewportCommand.isCaptionCommand).length = 2 := by
  have hcap : (cfSmall.captionRect inpCapBoth).contains inpCapBoth.pos := by
    norm_num [cfSmall, inpCapBoth, FrameInput.pos, Option.getD, CustomFrame.captionRect,
      CustomFrame.viewRect, CustomFrame.sizeboxInner, CustomFrame.shadowWidth,
      Rect.fromMinSize, Rect.fromMinMax, Rect.shrink, Rect.subMargin, Rect.translate,
      Rect.intersect, Rect.contains, Margin.same, max_def, min_def]
  have hA : ¬ cfSmall.sizeboxActive inpCapBoth := fun hA =>
    hA.2.1 (captionRect_subset cfSmall inpCapBoth _ hcap)
  rw [show_commands_eq, if_neg hA, if_pos hcap]
  rfl

/-- C6 amended: per frame at most one directional `BeginResize`
command, at most one `StartDrag`, at most one `Maximized`, hence at
most two caption commands; each command is emitted only when its event
flag is observed that same frame, never speculatively. -/
theorem C6_amended (f : CustomFrame) (inp : FrameInput) :
    (f.show inp).commands.countP (fun c => c.isResizeCommand) ≤ 1 ∧
    (f.show inp).commands.count ViewportCommand.startDrag ≤ 1 ∧
    (f.show inp).commands.countP (fun c => c.isMaximizedCommand) ≤ 1 ∧
    (f.show inp).commands.countP (fun c => c.isCaptionCommand) ≤ 2 ∧
    (inp.sizeboxDragStarted = false →
      ∀ d : ResizeDirection, ViewportCommand.beginResize d ∉ (f.show inp).commands) ∧
    (inp.captionDragStarted = false →
      ViewportCommand.startDrag ∉ (f.show inp).commands) ∧
    (inp.captionDoubleClicked = false →
      ∀ b : Bool, ViewportCommand.maximized b ∉ (f.show inp).commands) := by
  rw [show_commands_eq]
  by_cases hA : f.sizeboxActive inp <;>
    by_cases hcap : (f.captionRect inp).contains inp.pos <;>
    rcases hr : resolveDirection inp.pos (f.sizeboxInner inp) with _ | d <;>
    cases hsd : inp.sizeboxDragStarted <;>
    cases hcd : inp.captionDragStarted <;>
    cases hdc : inp.captionDoubleClicked <;>
    simp [hA, hcap, hr, hsd, hcd, hdc, ViewportCommand.isResizeCommand,
      ViewportCommand.isCaptionCommand, ViewportCommand.isMaximizedCommand,
      List.count_cons, List.countP_cons, beq_iff_eq]

/-- C6 amended witness: with no caption drag start observed, no
`StartDrag` command is emitted. -/
theorem C6_amended_witness :
    ViewportCommand.startDrag ∉ (cfSmall.show inpWest).commands :=
  (C6_amended cfSmall inpWest).2.2.2.2.2.1 rfl

/-- C7: with the pointer inside `view_rect` and outside
`sizebox_inner`, the interior fall-through branch of the direction
ladder is unreachable: the resolution yields a direction and a cursor
icon is set. -/
theorem C7_interior_unreachable (f : CustomFrame) (inp : FrameInput) (p : Pos2)
    (hp : inp.pointerPos = some p)
    (hv : (f.viewRect inp).contains p)
    (hc : ¬ (f.sizeboxInner inp).contains p)
    (hm : inp.maximized = false) :
    resolveDirection p (f.sizeboxInner inp) ≠ none ∧ (f.show inp).cursor ≠ none := by
  have hpos : inp.pos = p := FrameInput.pos_eq inp p hp
  have hA : f.sizeboxActive inp := ⟨by rwa [hpos], by rwa [hpos], hm⟩
  obtain ⟨d, hd⟩ := resolveDirection_isSome p (f.sizeboxInner inp) hc
  obtain ⟨-, -, hcur, -⟩ := show_resize_char f inp hA
  constructor
  · rw [hd]
    simp
  · rw [hcur, hpos, hd]
    simp

/-- C7 witness: at (2, 50) in the west ring of the small style the
resolution does not fall through. -/
theorem C7_witness :
    resolveDirection ⟨2, 50⟩ (cfSmall.sizeboxInner inpWest) ≠ none :=
  (C7_interior_unreachable cfSmall inpWest ⟨2, 50⟩ rfl
    (by norm_num [cfSmall, inpWest, CustomFrame.viewRect, CustomFrame.shadowWidth,
      Rect.fromMinSize, Rect.shrink, Rect.contains])
    (by norm_num [cfSmall, inpWest, CustomFrame.viewRect, CustomFrame.sizeboxInner,
      CustomFrame.shadowWidth, Rect.fromMinSize, Rect.shrink, Rect.subMargin,
      Rect.contains, Margin.same])
    rfl).1

/-- C8: when no pointer position is available, the sentinel
`(f32::MIN, f32::MIN)` matches no zone for any style with a
non-negative shadow extent and a resize margin above the sentinel: no
region is registered, no cursor overridden, no command emitted. -/
theorem C8_missing_pointer (f : CustomFrame) (inp : FrameInput)
    (hp : inp.pointerPos = none)
    (hblur : 0 ≤ f.shadow.blur + f.shadow.spread)
    (hleft : f32Min < f.sizebox.left) :
    (f.show inp).sizeboxRegion = none ∧ (f.show inp).captionRegion = none ∧
    (f.show inp).cursor = none ∧ (f.show inp).commands = [] := by
  have hpos : inp.pos = ⟨f32Min, f32Min⟩ := by simp [FrameInput.pos, hp]
  have hsw : 0 ≤ f.shadowWidth inp.maximized := by
    unfold CustomFrame.shadowWidth
    split
    · exact le_refl 0
    · exact hblur
  have hMn : f32Min < 0 := by
    unfold f32Min f32Max
    norm_num
  have hview : ¬ (f.viewRect inp).contains inp.pos := by
    rw [hpos]
    intro hcontains
    obtain ⟨h1, -, -, -⟩ := hcontains
    rw [show (f.viewRect inp).min.x = 0 + f.shadowWidth inp.maximized from rfl] at h1
    linarith
  have hcapr : ¬ (f.captionRect inp).contains inp.pos := by
    rw [hpos]
    intro hcontains
    obtain ⟨h1, -, -, -⟩ := hcontains
    have h2 : (f.sizeboxInner inp).min.x ≤ f32Min := le_trans (le_max_right _ _) h1
    rw [show (f.sizeboxInner inp).min.x =
        0 + f.shadowWidth inp.maximized + f.sizebox.left from rfl] at h2
    linarith
  have hA : ¬ f.sizeboxActive inp := fun hA => hview hA.1
  refine ⟨?_, ?_, ?_, ?_⟩
  · rw [show_sizeboxRegion_eq, if_neg hA]
  · rw [show_captionRegion_eq, if_neg hcapr]
  · rw [show_cursor_eq, if_neg hA]
  · rw [show_commands_eq, if_neg hA, if_neg hcapr]
    rfl

/-- C8 witness: the small style with no pointer emits no commands. -/
theorem C8_witness : (cfSmall.show inpNoPtr).commands = [] :=
  (C8_missing_pointer cfSmall inpNoPtr rfl
    (by norm_num [cfSmall])
    (by norm_num [cfSmall, Margin.same, f32Min, f32Max])).2.2.2

/-- C9 counterexample: the crate defines exactly four fluent setters
(`sizebox`, `caption`, `rounding`, `shadow`); there is no fluent
setter for the `inner_margin` field. -/
theorem C9_counterexample :
    "inner_margin" ∉ CustomFrame.fluentSetterNames ∧
    CustomFrame.fluentSetterNames.length = 4 := by
  decide

/-- C9 amended: each of the four fluent setters that do exist returns a
value in which exactly the targeted field is replaced by the argument
and all other fields are unchanged, with no validation. -/
theorem C9_setters (f : CustomFrame) (m : Margin) (r : Rect) (rd : Rounding)
    (sh : Shadow) :
    (f.withSizebox m).sizebox = m ∧ (f.withSizebox m).caption = f.caption ∧
    (f.withSizebox m).inner_margin = f.inner_margin ∧
    (f.withSizebox m).rounding = f.rounding ∧ (f.withSizebox m).shadow = f.shadow ∧
    (f.withCaption r).caption = r ∧ (f.withCaption r).sizebox = f.sizebox ∧
    (f.withCaption r).inner_margin = f.inner_margin ∧
    (f.withCaption r).rounding = f.rounding ∧ (f.withCaption r).shadow = f.shadow ∧
    (f.withRounding rd).rounding = rd ∧ (f.withRounding rd).sizebox = f.sizebox ∧
    (f.withRounding rd).caption = f.caption ∧
    (f.withRounding rd).inner_margin = f.inner_margin ∧
    (f.withRounding rd).shadow = f.shadow ∧
    (f.withShadow sh).shadow = sh ∧ (f.withShadow sh).sizebox = f.sizebox ∧
    (f.withShadow sh).caption = f.caption ∧
    (f.withShadow sh).inner_margin = f.inner_margin ∧
    (f.withShadow sh).rounding = f.rounding :=
  ⟨rfl, rfl, rfl, rfl, rfl, rfl, rfl, rfl, rfl, rfl, rfl, rfl, rfl, rfl, rfl,
   rfl, rfl, rfl, rfl, rfl⟩

/-- C10: the default style has resize margin 4 on all sides, caption
rect (4,4)-(f32::MAX, 44), inner margin 10, rounding 10, a shadow with
zero offset, blur 18 and spread 2, and a non-maximized shadow width of
exactly 20. -/
theorem C10_default_style :
    CustomFrame.default.sizebox = Margin.same 4 ∧
    CustomFrame.default.caption = Rect.fromMinMax ⟨4, 4⟩ ⟨f32Max, 44⟩ ∧
    CustomFrame.default.inner_margin = Margin.same 10 ∧
    CustomFrame.default.rounding = Rounding.same 10 ∧
    CustomFrame.default.shadow.offset = ⟨0, 0⟩ ∧
    CustomFrame.default.shadow.blur = 18 ∧
    CustomFrame.default.shadow.spread = 2 ∧
    CustomFrame.default.shadowWidth false = 20 := by
  refine ⟨rfl, rfl, rfl, rfl, rfl, rfl, rfl, ?_⟩
  norm_num [CustomFrame.shadowWidth, CustomFrame.default]
